import Mathlib

/-!
Verification of the paymaster-service authorization protocol.

The development shallowly embeds the protocol core of the repository:

* `SignatureVerifyingPaymasterV07` — the current (VERSION 4) paymaster
  contract: `parsePaymasterData`, `getHash`, `_packValidationData`,
  `_validatePaymasterUserOp`, `setVerifyingSigner`, `setMaxAllowedGasCost`
  (src/contracts/SignatureVerifyingPaymasterV07.sol).
* `MyPaymasterSigner` — the OZ-based paymaster's bounded
  `setMaxAllowedGasCost` (src/contracts/SSVPaymaster.sol).
* `RelayV07`/`RelayV08` — the backend's `createPaymasterData` encoders and
  the EIP-712 domain/message pre-hash encodings used by
  `generateEIP712Signature` (src/src/relay.ts).

Byte strings are `List Nat` with each element a byte value (`< 256`).
Machine words are `Nat` with explicit `% 2 ^ w` / `< 2 ^ w` bounds where
overflow or truncation matters.  `keccak256` and `ECDSA.recover` are
abstract parameters (`kec`, `recover`): every digest is represented by the
exact byte string fed to the hash, so collision-resistance and
unforgeability enter only as explicitly named hypotheses on `kec` and
`recover` at the concrete byte strings involved.
-/

namespace PaymasterService

set_option maxRecDepth 16000

/-! ## Byte strings and big-endian words -/

/-- Big-endian value of a byte string (the number denoted by the bytes,
most significant first).  Models Solidity's `uint48(bytes6(...))` reads and
the big-endian interpretation of `abi.encode` words. -/
def decBytes (l : List Nat) : Nat :=
  l.foldl (fun a b => a * 256 + b) 0

/-- `natToBytesBE k x` is the `k`-byte big-endian encoding of `x % 256 ^ k`.
With `k = 32` it models one `abi.encode` word; with `k = 6` it models the
12-hex-character `padStart` encoding of a `uint48` timestamp used by the
backend's `createPaymasterData`. -/
def natToBytesBE : Nat → Nat → List Nat
  | 0, _ => []
  | k + 1, x => natToBytesBE k (x / 256) ++ [x % 256]

/-! ## PaymasterDataCodec

Decode lives on-chain: `SignatureVerifyingPaymasterV07.parsePaymasterData`
(src/contracts/SignatureVerifyingPaymasterV07.sol lines 110-130).  Encode
lives in the backend: `createPaymasterData` (src/src/relay.ts lines
103-111 for the v0.7 service and lines 542-550 for the v0.8 service). -/

/-- Revert reasons of `parsePaymasterData`.  The spec maps both to the
single fatal `Malformed` outcome. -/
inductive ParseError where
  | invalidPaymasterData
  | invalidSignatureLength (length : Nat)
deriving DecidableEq

/-- `SignatureVerifyingPaymasterV07.parsePaymasterData`:
reverts if the input is shorter than 77 bytes, reads `validUntil` from
bytes `[0:6]`, `validAfter` from bytes `[6:12]`, takes the rest as the
signature and reverts unless it is exactly 65 bytes. -/
def parsePaymasterData (paymasterData : List Nat) :
    Except ParseError (Nat × Nat × List Nat) :=
  if paymasterData.length < 77 then .error .invalidPaymasterData
  else
    let validUntil := decBytes (paymasterData.take 6)
    let validAfter := decBytes ((paymasterData.drop 6).take 6)
    let signature := paymasterData.drop 12
    if signature.length ≠ 65 then .error (.invalidSignatureLength signature.length)
    else .ok (validUntil, validAfter, signature)

instance {e a : Type} [DecidableEq e] [DecidableEq a] : DecidableEq (Except e a) :=
  fun x y =>
    match x, y with
    | .error u, .error v =>
      if h : u = v then isTrue (by rw [h]) else isFalse (by simp [h])
    | .ok u, .ok v =>
      if h : u = v then isTrue (by rw [h]) else isFalse (by simp [h])
    | .error _, .ok _ => isFalse (by simp)
    | .ok _, .error _ => isFalse (by simp)

/-- The spec's `Malformed` outcome: either revert of `parsePaymasterData`. -/
def isMalformed (r : Except ParseError (Nat × Nat × List Nat)) : Bool :=
  match r with
  | .error _ => true
  | .ok _ => false

namespace RelayV07

/-- `createPaymasterData` of the v0.7 backend (src/src/relay.ts lines
103-111): hex-concatenation `validUntil (12 hex chars) ‖ validAfter
(12 hex chars) ‖ signature`, i.e. at byte level the 6-byte big-endian
`validUntil` first, then the 6-byte big-endian `validAfter`, then the
signature.  The `padStart(12, '0')` encoding equals the 6-byte
big-endian encoding exactly on the `uint48` domain the timestamps
inhabit. -/
def createPaymasterData (validUntil validAfter : Nat) (signature : List Nat) : List Nat :=
  natToBytesBE 6 validUntil ++ natToBytesBE 6 validAfter ++ signature

end RelayV07

namespace RelayV08

/-- `createPaymasterData` of the v0.8 backend (src/src/relay.ts lines
542-550): `validAfter` first, then `validUntil`, then the signature. -/
def createPaymasterData (validAfter validUntil : Nat) (signature : List Nat) : List Nat :=
  natToBytesBE 6 validAfter ++ natToBytesBE 6 validUntil ++ signature

end RelayV08


/-! ## DigestBuilder

`SignatureVerifyingPaymasterV07.getHash` (contract lines 146-163) hashes
`abi.encode(validUntil, validAfter, block.chainid, paymasterAddress,
senderAddress, nonce, calldataHash)` — seven static 32-byte words.  The
pre-hash encoding is modelled exactly; `keccak256` stays an abstract
parameter `kec`. -/

/-- The `abi.encode` pre-hash byte string of
`SignatureVerifyingPaymasterV07.getHash`, in the contract's field order. -/
def getHashEncoding (validUntil validAfter chainid paymasterAddress senderAddress
    nonce calldataHash : Nat) : List Nat :=
  natToBytesBE 32 validUntil ++ natToBytesBE 32 validAfter ++ natToBytesBE 32 chainid ++
    natToBytesBE 32 paymasterAddress ++ natToBytesBE 32 senderAddress ++
    natToBytesBE 32 nonce ++ natToBytesBE 32 calldataHash

/-- `SignatureVerifyingPaymasterV07.getHash`:
`keccak256(abi.encode(validUntil, validAfter, block.chainid,
paymasterAddress, senderAddress, nonce, calldataHash))`. -/
def getHash (kec : List Nat → Nat) (validUntil validAfter chainid paymasterAddress
    senderAddress nonce calldataHash : Nat) : Nat :=
  kec (getHashEncoding validUntil validAfter chainid paymasterAddress senderAddress
    nonce calldataHash)

/-- The 28-byte EIP-191 header `"\x19Ethereum Signed Message:\n32"`
prepended by `MessageHashUtils.toEthSignedMessageHash`. -/
def eip191Header : List Nat :=
  (0x19 : Nat) :: (("Ethereum Signed Message:" ++ "\n32").toList.map Char.toNat)

/-- `MessageHashUtils.toEthSignedMessageHash`:
`keccak256("\x19Ethereum Signed Message:\n32" ‖ hash)`. -/
def toEthSignedMessageHash (kec : List Nat → Nat) (hash : Nat) : Nat :=
  kec (eip191Header ++ natToBytesBE 32 hash)

/-- The EIP-712 domain-separator pre-hash encoding used by the backend's
`generateEIP712Signature` (src/src/relay.ts lines 55-94, viem
`signTypedData` semantics): `abi.encode(typeHash, keccak256(name),
keccak256(version), chainId, verifyingContract)`.  The protocol name and
version strings enter through their hash words `nameHash`/`versionHash`. -/
def eip712DomainEncoding (domainTypeHash nameHash versionHash chainid
    verifyingContract : Nat) : List Nat :=
  natToBytesBE 32 domainTypeHash ++ natToBytesBE 32 nameHash ++
    natToBytesBE 32 versionHash ++ natToBytesBE 32 chainid ++
    natToBytesBE 32 verifyingContract

/-- The EIP-712 `PaymasterData` struct pre-hash encoding used by the
backend's `generateEIP712Signature`: `abi.encode(typeHash, validUntil,
validAfter, sender, nonce, calldataHash)`. -/
def eip712MessageEncoding (structTypeHash validUntil validAfter sender nonce
    calldataHash : Nat) : List Nat :=
  natToBytesBE 32 structTypeHash ++ natToBytesBE 32 validUntil ++
    natToBytesBE 32 validAfter ++ natToBytesBE 32 sender ++
    natToBytesBE 32 nonce ++ natToBytesBE 32 calldataHash


/-! ## ValidationEngine and ConfigStore

`SignatureVerifyingPaymasterV07` storage and entry points (contract lines
27-30, 73-87, 174-241).  The ambient execution context (`block.chainid`,
`address(this)`, `msg.sender`) becomes explicit parameters. -/

/-- Mutable contract storage relevant to the protocol: the spec's
`Config`. -/
structure PaymasterState where
  owner : Nat
  verifyingSigner : Nat
  maxAllowedGasCost : Nat
deriving DecidableEq

/-- The fields of a `PackedUserOperation` read by
`_validatePaymasterUserOp`. -/
structure PackedUserOperation where
  sender : Nat
  nonce : Nat
  callData : List Nat
  paymasterAndData : List Nat
deriving DecidableEq

/-- `UserOperationLib.PAYMASTER_DATA_OFFSET`: 20-byte paymaster address +
16-byte verification gas limit + 16-byte postOp gas limit. -/
def PAYMASTER_DATA_OFFSET : Nat := 52

/-- `SignatureVerifyingPaymasterV07._packValidationData`:
`(sigFailed ? 1 : 0) | (validUntil << 160) | (validAfter << 208)`. -/
def _packValidationData (sigFailed : Bool) (validUntil validAfter : Nat) : Nat :=
  (if sigFailed then 1 else 0) ||| (validUntil <<< 160) ||| (validAfter <<< 208)

/-- Reverts of `_validatePaymasterUserOp`: a propagated
`parsePaymasterData` revert, or `GasCostTooHigh(requested, maxAllowed)`. -/
inductive ValidateError where
  | parse (e : ParseError)
  | gasCostTooHigh (requested maxAllowed : Nat)
deriving DecidableEq

/-- `SignatureVerifyingPaymasterV07._validatePaymasterUserOp` (contract
lines 196-241): slice `paymasterAndData` at `PAYMASTER_DATA_OFFSET`, parse
it, rebuild the digest from the operation's own `sender`, `nonce` and
`keccak256(callData)`, recover the signer over the EIP-191 wrapped digest,
return the signature-failure packed data if it is not `verifyingSigner`,
revert `GasCostTooHigh` if `maxCost` exceeds `maxAllowedGasCost`, else
return `abi.encode(maxCost)` and the success packed data.  `kec` and
`recover` abstract `keccak256` and `ECDSA.recover`. -/
def _validatePaymasterUserOp (kec : List Nat → Nat) (recover : Nat → List Nat → Nat)
    (state : PaymasterState) (chainid selfAddress : Nat)
    (userOp : PackedUserOperation) (maxCost : Nat) :
    Except ValidateError (List Nat × Nat) :=
  let paymasterData := userOp.paymasterAndData.drop PAYMASTER_DATA_OFFSET
  match parsePaymasterData paymasterData with
  | .error e => .error (.parse e)
  | .ok (validUntil, validAfter, signature) =>
    let calldataHash := kec userOp.callData
    let hash := getHash kec validUntil validAfter chainid selfAddress userOp.sender
      userOp.nonce calldataHash
    let ethSignedHash := toEthSignedMessageHash kec hash
    let recovered := recover ethSignedHash signature
    if recovered ≠ state.verifyingSigner then
      .ok ([], _packValidationData true validUntil validAfter)
    else if maxCost > state.maxAllowedGasCost then
      .error (.gasCostTooHigh maxCost state.maxAllowedGasCost)
    else
      .ok (natToBytesBE 32 maxCost, _packValidationData false validUntil validAfter)

/-- Admin rejection reasons.  `notOwner` models the `onlyOwner` revert;
the `requireFailed*` constructors model the two `require` messages of
`MyPaymasterSigner.setMaxAllowedGasCost`. -/
inductive AdminError where
  | notOwner
  | requireFailedZero
  | requireFailedTooHigh
deriving DecidableEq

/-- `SignatureVerifyingPaymasterV07.setVerifyingSigner` (contract lines
73-77): `onlyOwner`, then overwrite `verifyingSigner`. -/
def setVerifyingSigner (s : PaymasterState) (caller newSigner : Nat) :
    Except AdminError PaymasterState :=
  if caller ≠ s.owner then .error .notOwner
  else .ok ⟨s.owner, newSigner, s.maxAllowedGasCost⟩

/-- `SignatureVerifyingPaymasterV07.setMaxAllowedGasCost` (contract lines
83-87): `onlyOwner`, then overwrite `maxAllowedGasCost` — no zero or
ceiling check in this contract generation. -/
def setMaxAllowedGasCost (s : PaymasterState) (caller newMax : Nat) :
    Except AdminError PaymasterState :=
  if caller ≠ s.owner then .error .notOwner
  else .ok ⟨s.owner, s.verifyingSigner, newMax⟩

namespace MyPaymasterSigner

/-- Storage of `MyPaymasterSigner` (src/contracts/SSVPaymaster.sol):
`Ownable` owner, the immutable ECDSA signer, and `maxAllowedGasCost`. -/
structure State where
  owner : Nat
  signer : Nat
  maxAllowedGasCost : Nat
deriving DecidableEq

/-- `MyPaymasterSigner.setMaxAllowedGasCost` (SSVPaymaster.sol lines
50-54): `onlyOwner`, `require(_maxAllowedGasCost > 0)`,
`require(_maxAllowedGasCost <= 1 ether)` with `1 ether = 10^18 wei`, then
overwrite `maxAllowedGasCost`. -/
def setMaxAllowedGasCost (s : State) (caller newMax : Nat) :
    Except AdminError State :=
  if caller ≠ s.owner then .error .notOwner
  else if ¬ (newMax > 0) then .error .requireFailedZero
  else if ¬ (newMax ≤ 10 ^ 18) then .error .requireFailedTooHigh
  else .ok ⟨s.owner, s.signer, newMax⟩

end MyPaymasterSigner


/-! ## Concrete fixtures used by the claim witnesses -/

/-- A 129-byte all-zero `paymasterAndData`: 52 bytes of
address-and-gas-limit header followed by an all-zero 77-byte payload. -/
def pmd0 : List Nat := List.replicate 129 0

/-- A concrete user operation. -/
def op0 : PackedUserOperation := ⟨1, 0, [], pmd0⟩

/-- A concrete configuration: owner `0`, verifying signer `1`, cost cap
`100`. -/
def state0 : PaymasterState := ⟨0, 1, 100⟩

/-- A concrete stand-in for `keccak256`: the big-endian value of the byte
string reduced modulo a fixed 256-bit modulus. -/
def kec0 : List Nat → Nat := fun l => decBytes l % (2 ^ 256 - 189)

/-- A recovery oracle that never returns address `1`. -/
def recover0 : Nat → List Nat → Nat := fun _ _ => 0

/-- A recovery oracle that always returns address `1`. -/
def recover1 : Nat → List Nat → Nat := fun _ _ => 1

/-- `op0` with the nonce changed from `0` to `1` and nothing else. -/
def opB0 : PackedUserOperation := ⟨1, 1, [], pmd0⟩

/-- A recovery oracle modelling a signature honestly produced for the
digest of `op0` (window `[0, 0]`, chain `0`, paymaster `0`): it recovers
the verifying signer `1` exactly on that digest and some other address
`0` everywhere else. -/
def recoverC2 : Nat → List Nat → Nat :=
  fun d _ =>
    if d = toEthSignedMessageHash kec0 (getHash kec0 0 0 0 0 op0.sender op0.nonce
        (kec0 op0.callData)) then 1 else 0


/-! ## Byte-string lemmas -/

theorem natToBytesBE_length (k : Nat) : ∀ x : Nat, (natToBytesBE k x).length = k := by
  induction k with
  | zero => intro x; rfl
  | succ k ih => intro x; simp [natToBytesBE, ih]

theorem decBytes_append_singleton (l : List Nat) (b : Nat) :
    decBytes (l ++ [b]) = decBytes l * 256 + b := by
  simp [decBytes, List.foldl_append]

theorem decBytes_natToBytesBE (k : Nat) : ∀ x : Nat, decBytes (natToBytesBE k x) = x % 256 ^ k := by
  induction k with
  | zero => intro x; simp [natToBytesBE, decBytes, Nat.mod_one]
  | succ k ih =>
    intro x
    rw [natToBytesBE, decBytes_append_singleton, ih]
    rw [Nat.pow_succ, Nat.mul_comm (256 ^ k) 256, Nat.mod_mul]
    ring

theorem natToBytesBE_inj {k x y : Nat} (hx : x < 256 ^ k) (hy : y < 256 ^ k)
    (h : natToBytesBE k x = natToBytesBE k y) : x = y := by
  have h2 := congrArg decBytes h
  rwa [decBytes_natToBytesBE, decBytes_natToBytesBE, Nat.mod_eq_of_lt hx,
    Nat.mod_eq_of_lt hy] at h2

theorem natToBytesBE_isBytes (k : Nat) : ∀ x : Nat, ∀ b ∈ natToBytesBE k x, b < 256 := by
  induction k with
  | zero => intro x b hb; simp [natToBytesBE] at hb
  | succ k ih =>
    intro x b hb
    rw [natToBytesBE] at hb
    rcases List.mem_append.mp hb with h | h
    · exact ih _ b h
    · simp at h
      subst h
      exact Nat.mod_lt _ (by norm_num)

theorem decBytes_lt_aux (l : List Nat) (hb : ∀ b ∈ l, b < 256) :
    ∀ a : Nat, l.foldl (fun a b => a * 256 + b) a < (a + 1) * 256 ^ l.length := by
  induction l with
  | nil => intro a; simp
  | cons c t ih =>
    intro a
    have hc : c < 256 := hb c (List.mem_cons_self c t)
    have ht : ∀ b ∈ t, b < 256 := fun b h => hb b (List.mem_cons_of_mem c h)
    have h1 := ih ht (a * 256 + c)
    have h2 : (a * 256 + c + 1) * 256 ^ t.length ≤ (a + 1) * 256 ^ (t.length + 1) := by
      have : a * 256 + c + 1 ≤ (a + 1) * 256 := by omega
      calc (a * 256 + c + 1) * 256 ^ t.length
          ≤ (a + 1) * 256 * 256 ^ t.length := Nat.mul_le_mul_right _ this
        _ = (a + 1) * 256 ^ (t.length + 1) := by rw [Nat.mul_assoc, Nat.pow_succ, Nat.mul_comm (256 ^ t.length) 256]
    simpa [List.foldl_cons, List.length_cons] using Nat.lt_of_lt_of_le h1 h2

theorem decBytes_lt (l : List Nat) (hb : ∀ b ∈ l, b < 256) :
    decBytes l < 256 ^ l.length := by
  simpa [decBytes] using decBytes_lt_aux l hb 0


/-- Inversion of a successful parse: the input is at least 77 bytes, the
signature is its tail from byte 12 (hence exactly 77 bytes total), and the
two timestamps are the big-endian values of bytes `[0:6]` and `[6:12]`. -/
theorem parsePaymasterData_ok {pd : List Nat} {vu va : Nat} {sig : List Nat}
    (h : parsePaymasterData pd = .ok (vu, va, sig)) :
    pd.length = 77 ∧ vu = decBytes (pd.take 6) ∧ va = decBytes ((pd.drop 6).take 6) ∧
      sig = pd.drop 12 := by
  unfold parsePaymasterData at h
  by_cases h77 : pd.length < 77
  · rw [if_pos h77] at h
    exact absurd h (by simp)
  · rw [if_neg h77] at h
    dsimp only at h
    by_cases h65 : (pd.drop 12).length ≠ 65
    · rw [if_pos h65] at h
      exact absurd h (by simp)
    · rw [if_neg h65] at h
      simp only [Except.ok.injEq, Prod.mk.injEq] at h
      obtain ⟨h1, h2, h3⟩ := h
      refine ⟨?_, h1.symm, h2.symm, h3.symm⟩
      simp only [List.length_drop] at h65
      omega

/-- Timestamps produced by a successful parse of a genuine byte string are
48-bit values. -/
theorem parsePaymasterData_ok_bounds {pd : List Nat} {vu va : Nat} {sig : List Nat}
    (h : parsePaymasterData pd = .ok (vu, va, sig))
    (hb : ∀ b ∈ pd, b < 256) :
    vu < 2 ^ 48 ∧ va < 2 ^ 48 := by
  obtain ⟨hlen, hvu, hva, _⟩ := parsePaymasterData_ok h
  have htake : (pd.take 6).length = 6 := by
    rw [List.length_take]; omega
  have hdrop : ((pd.drop 6).take 6).length = 6 := by
    rw [List.length_take, List.length_drop]; omega
  have h1 : vu < 256 ^ 6 := by
    have hlt := decBytes_lt (pd.take 6) (fun b hmem => hb b (List.mem_of_mem_take hmem))
    rwa [htake, ← hvu] at hlt
  have h2 : va < 256 ^ 6 := by
    have hlt := decBytes_lt ((pd.drop 6).take 6)
      (fun b hmem => hb b (List.mem_of_mem_drop (List.mem_of_mem_take hmem)))
    rwa [hdrop, ← hva] at hlt
  have hpow : (256 : Nat) ^ 6 = 2 ^ 48 := by norm_num
  rw [hpow] at h1 h2
  exact ⟨h1, h2⟩


/-- Peel one 32-byte word off equal concatenations. -/
theorem word_append_inj {x y : Nat} {l m : List Nat}
    (h : natToBytesBE 32 x ++ l = natToBytesBE 32 y ++ m) :
    natToBytesBE 32 x = natToBytesBE 32 y ∧ l = m :=
  List.append_inj h (by rw [natToBytesBE_length, natToBytesBE_length])

/-- Distinct 256-bit values have distinct 32-byte words. -/
theorem word_ne {x y : Nat} (hx : x < 2 ^ 256) (hy : y < 2 ^ 256) (hxy : x ≠ y) :
    natToBytesBE 32 x ≠ natToBytesBE 32 y := by
  intro h
  have hpow : (256 : Nat) ^ 32 = 2 ^ 256 := by
    rw [show (256 : Nat) = 2 ^ 8 by norm_num, ← pow_mul]
    norm_num
  exact hxy (natToBytesBE_inj (by rw [hpow]; exact hx) (by rw [hpow]; exact hy) h)


/-! ## Packed validation data arithmetic -/

theorem packValidationData_eq_add (b : Bool) {vu : Nat} (va : Nat) (hvu : vu < 2 ^ 48) :
    _packValidationData b vu va = (if b then 1 else 0) + 2 ^ 160 * vu + 2 ^ 208 * va := by
  unfold _packValidationData
  rw [Nat.shiftLeft_eq, Nat.shiftLeft_eq]
  have hb : (if b then 1 else 0 : Nat) < 2 ^ 160 := by
    cases b <;> simp
  have h1 : (if b then 1 else 0 : Nat) ||| vu * 2 ^ 160 = 2 ^ 160 * vu + (if b then 1 else 0) := by
    rw [Nat.or_comm, Nat.mul_comm]
    exact (Nat.mul_add_lt_is_or hb vu).symm
  have hlt : 2 ^ 160 * vu + (if b then 1 else 0 : Nat) < 2 ^ 208 := by
    have hmul : 2 ^ 160 * (vu + 1) ≤ 2 ^ 160 * 2 ^ 48 :=
      Nat.mul_le_mul_left _ hvu
    have hpow : (2 : Nat) ^ 160 * 2 ^ 48 = 2 ^ 208 := by
      rw [← pow_add]
    omega
  have h2 : 2 ^ 160 * vu + (if b then 1 else 0 : Nat) ||| va * 2 ^ 208
      = 2 ^ 208 * va + (2 ^ 160 * vu + (if b then 1 else 0)) := by
    rw [Nat.or_comm, Nat.mul_comm]
    exact (Nat.mul_add_lt_is_or hlt va).symm
  rw [h1, h2]
  ring

theorem packValidationData_extract (b : Bool) {vu va : Nat}
    (hvu : vu < 2 ^ 48) :
    _packValidationData b vu va / 2 ^ 208 = va ∧
      _packValidationData b vu va / 2 ^ 160 % 2 ^ 48 = vu := by
  rw [packValidationData_eq_add b va hvu]
  have hb : (if b then 1 else 0 : Nat) < 2 ^ 160 := by
    cases b <;> simp
  constructor
  · have hlow : (if b then 1 else 0 : Nat) + 2 ^ 160 * vu < 2 ^ 208 := by
      have hmul : 2 ^ 160 * (vu + 1) ≤ 2 ^ 160 * 2 ^ 48 :=
        Nat.mul_le_mul_left _ hvu
      have hpow : (2 : Nat) ^ 160 * 2 ^ 48 = 2 ^ 208 := by
        rw [← pow_add]
      omega
    rw [Nat.add_assoc ((if b then 1 else 0 : Nat)) _ _] at *
    rw [show (if b then 1 else 0 : Nat) + (2 ^ 160 * vu + 2 ^ 208 * va)
        = ((if b then 1 else 0) + 2 ^ 160 * vu) + 2 ^ 208 * va by ring]
    rw [Nat.add_mul_div_left _ _ (by positivity), Nat.div_eq_of_lt hlow, Nat.zero_add]
  · have hsplit : (if b then 1 else 0 : Nat) + 2 ^ 160 * vu + 2 ^ 208 * va
        = (if b then 1 else 0) + 2 ^ 160 * (vu + 2 ^ 48 * va) := by
      have : (2 : Nat) ^ 208 = 2 ^ 160 * 2 ^ 48 := by rw [← pow_add]
      rw [this]; ring
    rw [hsplit, Nat.add_mul_div_left _ _ (by positivity),
      Nat.div_eq_of_lt hb, Nat.zero_add, Nat.add_mul_mod_self_left,
      Nat.mod_eq_of_lt hvu]

/-! ## Codec facts shared by the claims -/

theorem parse_of_length_77 {pd : List Nat} (h77 : pd.length = 77) :
    parsePaymasterData pd =
      .ok (decBytes (pd.take 6), decBytes ((pd.drop 6).take 6), pd.drop 12) := by
  unfold parsePaymasterData
  rw [if_neg (by omega)]
  dsimp only
  rw [if_neg (by rw [List.length_drop, h77]; decide)]

theorem createPaymasterData_take_drop (vu va : Nat) (sig : List Nat)
    (hsig : sig.length = 65) :
    (RelayV07.createPaymasterData vu va sig).length = 77 ∧
      (RelayV07.createPaymasterData vu va sig).take 6 = natToBytesBE 6 vu ∧
      ((RelayV07.createPaymasterData vu va sig).drop 6).take 6 = natToBytesBE 6 va ∧
      (RelayV07.createPaymasterData vu va sig).drop 12 = sig := by
  unfold RelayV07.createPaymasterData
  have h6 : ∀ x : Nat, (natToBytesBE 6 x).length = 6 := fun x => natToBytesBE_length 6 x
  have hassoc : natToBytesBE 6 vu ++ natToBytesBE 6 va ++ sig
      = natToBytesBE 6 vu ++ (natToBytesBE 6 va ++ sig) := List.append_assoc _ _ _
  refine ⟨?_, ?_, ?_, ?_⟩
  · simp [List.length_append, h6, hsig]
  · rw [hassoc]
    exact List.take_left' (h6 vu)
  · rw [hassoc, List.drop_left' (h6 vu)]
    exact List.take_left' (h6 va)
  · exact List.drop_left' (by simp [List.length_append, h6])

theorem decBytes_natToBytesBE_48 {x : Nat} (hx : x < 2 ^ 48) :
    decBytes (natToBytesBE 6 x) = x := by
  rw [decBytes_natToBytesBE, Nat.mod_eq_of_lt]
  calc x < 2 ^ 48 := hx
    _ = 256 ^ 6 := by norm_num

/-- C5: `parsePaymasterData` is total and never panics: it is `Malformed`
exactly when the input is shorter than 77 bytes or the slice after the two
6-byte timestamps is not exactly 65 bytes (equivalently, whenever the
input length is not 77, covering all lengths 0..76 and all extra or
missing signature bytes), and on every 77-byte input it returns the parsed
(timestamps, signature) triple. -/
theorem claim_C5_decode_total (paymasterData : List Nat) :
    (isMalformed (parsePaymasterData paymasterData) = true ↔
      paymasterData.length < 77 ∨ (paymasterData.drop 12).length ≠ 65) ∧
    (paymasterData.length = 77 →
      parsePaymasterData paymasterData =
        .ok (decBytes (paymasterData.take 6), decBytes ((paymasterData.drop 6).take 6),
          paymasterData.drop 12)) := by
  constructor
  · unfold parsePaymasterData isMalformed
    by_cases h77 : paymasterData.length < 77
    · rw [if_pos h77]
      simp [h77]
    · rw [if_neg h77]
      dsimp only
      by_cases h65 : (paymasterData.drop 12).length ≠ 65
      · rw [if_pos h65]
        exact ⟨fun _ => Or.inr h65, fun _ => rfl⟩
      · rw [if_neg h65]
        constructor
        · intro hfalse
          exact absurd hfalse (by simp [isMalformed])
        · intro hor
          rcases hor with h | h
          · exact absurd h h77
          · exact absurd h h65
  · exact fun h77 => parse_of_length_77 h77

/-- Witness for C5 at concrete inputs: a 77-byte input decodes to the
triple, and a 76-byte input is `Malformed`. -/
theorem claim_C5_decode_total_witness :
    parsePaymasterData (List.replicate 77 0) =
      .ok (decBytes ((List.replicate 77 0 : List Nat).take 6),
        decBytes (((List.replicate 77 0 : List Nat).drop 6).take 6),
        (List.replicate 77 0 : List Nat).drop 12) ∧
    isMalformed (parsePaymasterData (List.replicate 76 0)) = true := by
  constructor
  · exact (claim_C5_decode_total (List.replicate 77 0)).2 (by decide)
  · exact (claim_C5_decode_total (List.replicate 76 0)).1.mpr (by decide)

/-- C6: decoding the 77-byte encoding of a valid triple returns the
original triple, each field reassigned to its own name. -/
theorem claim_C6_roundtrip (validUntil validAfter : Nat) (signature : List Nat)
    (hvu : validUntil < 2 ^ 48) (hva : validAfter < 2 ^ 48)
    (hsig : signature.length = 65) :
    parsePaymasterData (RelayV07.createPaymasterData validUntil validAfter signature)
      = .ok (validUntil, validAfter, signature) := by
  obtain ⟨h77, htake, hmid, hdrop⟩ := createPaymasterData_take_drop validUntil validAfter
    signature hsig
  rw [parse_of_length_77 h77, htake, hmid, hdrop,
    decBytes_natToBytesBE_48 hvu, decBytes_natToBytesBE_48 hva]

/-- Witness for C6 at the spec's end-to-end window `[1000, 4600]`. -/
theorem claim_C6_roundtrip_witness :
    parsePaymasterData (RelayV07.createPaymasterData 4600 1000 (List.replicate 65 7))
      = .ok (4600, 1000, List.replicate 65 7) :=
  claim_C6_roundtrip 4600 1000 (List.replicate 65 7) (by decide) (by decide) (by decide)

/-- Counterexample to C7 as stated: the claim puts `validAfter` in bytes
0..5 of the encoding, but for the triple `validUntil = 2`,
`validAfter = 1` the v0.7 encoder's bytes 0..5 are the 6-byte big-endian
encoding of `validUntil = 2`, which differs from the 6-byte big-endian
encoding of `validAfter = 1`; the decoder likewise assigns the value of
bytes 0..5 to `validUntil`. -/
theorem claim_C7_layout_counterexample :
    (RelayV07.createPaymasterData 2 1 (List.replicate 65 0)).take 6 = natToBytesBE 6 2 ∧
    (RelayV07.createPaymasterData 2 1 (List.replicate 65 0)).take 6 ≠ natToBytesBE 6 1 ∧
    parsePaymasterData (RelayV07.createPaymasterData 2 1 (List.replicate 65 0))
      = .ok (2, 1, List.replicate 65 0) := by
  refine ⟨by decide, by decide, ?_⟩
  exact claim_C6_roundtrip 2 1 (List.replicate 65 0) (by decide) (by decide) (by decide)

/-- C7 (amended): the v0.7 codec pair uses the reverse of wire layout A:
`encode` places `validUntil` (6-byte big-endian) in bytes 0..5 and
`validAfter` in bytes 6..11, followed by the 65-byte signature (77 bytes
total), and `decode` reads the fields at those same positions; the v0.8
backend encoder instead emits `validAfter` first. -/
theorem claim_C7_layout_amended (validUntil validAfter : Nat) (signature : List Nat)
    (hsig : signature.length = 65) :
    RelayV07.createPaymasterData validUntil validAfter signature
      = natToBytesBE 6 validUntil ++ natToBytesBE 6 validAfter ++ signature ∧
    (RelayV07.createPaymasterData validUntil validAfter signature).length = 77 ∧
    (RelayV07.createPaymasterData validUntil validAfter signature).take 6
      = natToBytesBE 6 validUntil ∧
    ((RelayV07.createPaymasterData validUntil validAfter signature).drop 6).take 6
      = natToBytesBE 6 validAfter ∧
    RelayV08.createPaymasterData validAfter validUntil signature
      = natToBytesBE 6 validAfter ++ natToBytesBE 6 validUntil ++ signature ∧
    (∀ pd : List Nat, pd.length = 77 →
      parsePaymasterData pd
        = .ok (decBytes (pd.take 6), decBytes ((pd.drop 6).take 6), pd.drop 12)) := by
  obtain ⟨h77, htake, hmid, _⟩ := createPaymasterData_take_drop validUntil validAfter
    signature hsig
  exact ⟨rfl, h77, htake, hmid, rfl, fun pd h => parse_of_length_77 h⟩

/-- Witness for the amended C7 at a concrete triple. -/
theorem claim_C7_layout_amended_witness :
    (RelayV07.createPaymasterData 9 4 (List.replicate 65 1)).take 6 = natToBytesBE 6 9 ∧
    ((RelayV07.createPaymasterData 9 4 (List.replicate 65 1)).drop 6).take 6
      = natToBytesBE 6 4 :=
  ⟨(claim_C7_layout_amended 9 4 (List.replicate 65 1) (by decide)).2.2.1,
    (claim_C7_layout_amended 9 4 (List.replicate 65 1) (by decide)).2.2.2.1⟩

/-! ## Evaluation of `_validatePaymasterUserOp` after a successful parse -/

theorem validate_of_parse_ok {kec : List Nat → Nat} {recover : Nat → List Nat → Nat}
    {state : PaymasterState} {chainid selfAddress : Nat}
    {userOp : PackedUserOperation} {vu va : Nat} {sig : List Nat}
    (hparse : parsePaymasterData (userOp.paymasterAndData.drop PAYMASTER_DATA_OFFSET)
      = .ok (vu, va, sig)) (maxCost : Nat) :
    _validatePaymasterUserOp kec recover state chainid selfAddress userOp maxCost =
      if recover (toEthSignedMessageHash kec (getHash kec vu va chainid selfAddress
          userOp.sender userOp.nonce (kec userOp.callData))) sig ≠ state.verifyingSigner then
        .ok ([], _packValidationData true vu va)
      else if maxCost > state.maxAllowedGasCost then
        .error (.gasCostTooHigh maxCost state.maxAllowedGasCost)
      else
        .ok (natToBytesBE 32 maxCost, _packValidationData false vu va) := by
  simp only [_validatePaymasterUserOp]
  rw [hparse]

/-- C1: for every payload that decodes successfully, every operation,
configuration, context and cost, `_validatePaymasterUserOp` returns in its
packed result exactly the decoded `validUntil`/`validAfter`, unmodified,
on both the accept path and the signature-reject path: the only possible
outcomes are the two returns built from the parsed timestamps and the
`GasCostTooHigh` revert, and every returned packed word decodes back to
exactly the parsed timestamps — no branch rewrites or widens either one
after signature verification. -/
theorem claim_C1_window_immutable
    (kec : List Nat → Nat) (recover : Nat → List Nat → Nat)
    (state : PaymasterState) (chainid selfAddress : Nat)
    (userOp : PackedUserOperation) (maxCost : Nat)
    (validUntil validAfter : Nat) (signature : List Nat)
    (hparse : parsePaymasterData (userOp.paymasterAndData.drop PAYMASTER_DATA_OFFSET)
      = .ok (validUntil, validAfter, signature))
    (hbytes : ∀ b ∈ userOp.paymasterAndData, b < 256) :
    (_validatePaymasterUserOp kec recover state chainid selfAddress userOp maxCost
        = .ok ([], _packValidationData true validUntil validAfter) ∨
      _validatePaymasterUserOp kec recover state chainid selfAddress userOp maxCost
        = .ok (natToBytesBE 32 maxCost, _packValidationData false validUntil validAfter) ∨
      _validatePaymasterUserOp kec recover state chainid selfAddress userOp maxCost
        = .error (.gasCostTooHigh maxCost state.maxAllowedGasCost)) ∧
    (∀ context vdata,
      _validatePaymasterUserOp kec recover state chainid selfAddress userOp maxCost
          = .ok (context, vdata) →
      vdata / 2 ^ 208 = validAfter ∧ vdata / 2 ^ 160 % 2 ^ 48 = validUntil) := by
  have hb : ∀ b ∈ userOp.paymasterAndData.drop PAYMASTER_DATA_OFFSET, b < 256 :=
    fun b hmem => hbytes b (List.mem_of_mem_drop hmem)
  obtain ⟨hvu, hva⟩ := parsePaymasterData_ok_bounds hparse hb
  rw [validate_of_parse_ok hparse maxCost]
  by_cases hrec : recover (toEthSignedMessageHash kec (getHash kec validUntil validAfter
      chainid selfAddress userOp.sender userOp.nonce (kec userOp.callData))) signature
      ≠ state.verifyingSigner
  · rw [if_pos hrec]
    refine ⟨Or.inl rfl, ?_⟩
    intro context vdata h
    simp only [Except.ok.injEq, Prod.mk.injEq] at h
    rw [← h.2]
    exact packValidationData_extract true hvu
  · rw [if_neg hrec]
    by_cases hcost : maxCost > state.maxAllowedGasCost
    · rw [if_pos hcost]
      refine ⟨Or.inr (Or.inr rfl), ?_⟩
      intro context vdata h
      exact absurd h (by simp)
    · rw [if_neg hcost]
      refine ⟨Or.inr (Or.inl rfl), ?_⟩
      intro context vdata h
      simp only [Except.ok.injEq, Prod.mk.injEq] at h
      rw [← h.2]
      exact packValidationData_extract false hvu

/-- Witness for C1: the three-way case analysis instantiated on a concrete
operation with an all-zero 77-byte payload. -/
theorem claim_C1_window_immutable_witness :
    _validatePaymasterUserOp kec0 recover0 state0 0 0 op0 5
        = .ok ([], _packValidationData true 0 0) ∨
      _validatePaymasterUserOp kec0 recover0 state0 0 0 op0 5
        = .ok (natToBytesBE 32 5, _packValidationData false 0 0) ∨
      _validatePaymasterUserOp kec0 recover0 state0 0 0 op0 5
        = .error (.gasCostTooHigh 5 state0.maxAllowedGasCost) :=
  (claim_C1_window_immutable kec0 recover0 state0 0 0 op0 5 0 0 (List.replicate 65 0)
    (by decide) (by decide)).1

/-- C3: the checks run in the specified order.  If the recovered signer
differs from `verifyingSigner`, the result is the signature-rejected
return carrying the decoded window, for every requested cost — the cost
cap is not consulted.  Conversely a `GasCostTooHigh` revert can only
happen when the recovered signer equals `verifyingSigner` (and the cost
strictly exceeds the cap). -/
theorem claim_C3_check_order
    (kec : List Nat → Nat) (recover : Nat → List Nat → Nat)
    (state : PaymasterState) (chainid selfAddress : Nat)
    (userOp : PackedUserOperation)
    (validUntil validAfter : Nat) (signature : List Nat)
    (hparse : parsePaymasterData (userOp.paymasterAndData.drop PAYMASTER_DATA_OFFSET)
      = .ok (validUntil, validAfter, signature)) :
    (recover (toEthSignedMessageHash kec (getHash kec validUntil validAfter chainid
        selfAddress userOp.sender userOp.nonce (kec userOp.callData))) signature
        ≠ state.verifyingSigner →
      ∀ maxCost, _validatePaymasterUserOp kec recover state chainid selfAddress userOp
        maxCost = .ok ([], _packValidationData true validUntil validAfter)) ∧
    (∀ maxCost requested maxAllowed,
      _validatePaymasterUserOp kec recover state chainid selfAddress userOp maxCost
          = .error (.gasCostTooHigh requested maxAllowed) →
      recover (toEthSignedMessageHash kec (getHash kec validUntil validAfter chainid
          selfAddress userOp.sender userOp.nonce (kec userOp.callData))) signature
          = state.verifyingSigner ∧ state.maxAllowedGasCost < maxCost) := by
  constructor
  · intro hrec maxCost
    rw [validate_of_parse_ok hparse maxCost, if_pos hrec]
  · intro maxCost requested maxAllowed h
    rw [validate_of_parse_ok hparse maxCost] at h
    by_cases hrec : recover (toEthSignedMessageHash kec (getHash kec validUntil validAfter
        chainid selfAddress userOp.sender userOp.nonce (kec userOp.callData))) signature
        ≠ state.verifyingSigner
    · rw [if_pos hrec] at h
      exact absurd h (by simp)
    · rw [if_neg hrec] at h
      by_cases hcost : maxCost > state.maxAllowedGasCost
      · exact ⟨not_not.mp hrec, hcost⟩
      · rw [if_neg hcost] at h
        exact absurd h (by simp)

/-- Witness for C3: with a recovery oracle that never returns the
configured signer, validation signature-rejects without consulting the
cost cap. -/
theorem claim_C3_check_order_witness :
    _validatePaymasterUserOp kec0 recover0 state0 0 0 op0 7
      = .ok ([], _packValidationData true 0 0) :=
  (claim_C3_check_order kec0 recover0 state0 0 0 op0 0 0 (List.replicate 65 0)
    (by decide)).1 (by decide) 7

/-- C8: cost-cap boundary for a validly signed operation: a requested cost
equal to `maxAllowedGasCost` is accepted, and `maxAllowedGasCost + 1`
reverts `GasCostTooHigh` — the abort happens exactly on strict excess. -/
theorem claim_C8_cost_boundary
    (kec : List Nat → Nat) (recover : Nat → List Nat → Nat)
    (state : PaymasterState) (chainid selfAddress : Nat)
    (userOp : PackedUserOperation)
    (validUntil validAfter : Nat) (signature : List Nat)
    (hparse : parsePaymasterData (userOp.paymasterAndData.drop PAYMASTER_DATA_OFFSET)
      = .ok (validUntil, validAfter, signature))
    (hrec : recover (toEthSignedMessageHash kec (getHash kec validUntil validAfter chainid
        selfAddress userOp.sender userOp.nonce (kec userOp.callData))) signature
        = state.verifyingSigner) :
    _validatePaymasterUserOp kec recover state chainid selfAddress userOp
        state.maxAllowedGasCost
      = .ok (natToBytesBE 32 state.maxAllowedGasCost,
          _packValidationData false validUntil validAfter) ∧
    _validatePaymasterUserOp kec recover state chainid selfAddress userOp
        (state.maxAllowedGasCost + 1)
      = .error (.gasCostTooHigh (state.maxAllowedGasCost + 1) state.maxAllowedGasCost) := by
  constructor
  · rw [validate_of_parse_ok hparse state.maxAllowedGasCost,
      if_neg (fun hne => hne hrec), if_neg (by omega)]
  · rw [validate_of_parse_ok hparse (state.maxAllowedGasCost + 1),
      if_neg (fun hne => hne hrec), if_pos (by omega)]

/-- Witness for C8: with a recovery oracle that always returns the
configured signer, the boundary behaves as claimed on a concrete
operation and configuration. -/
theorem claim_C8_cost_boundary_witness :
    _validatePaymasterUserOp kec0 recover1 state0 0 0 op0 state0.maxAllowedGasCost
      = .ok (natToBytesBE 32 state0.maxAllowedGasCost, _packValidationData false 0 0) ∧
    _validatePaymasterUserOp kec0 recover1 state0 0 0 op0 (state0.maxAllowedGasCost + 1)
      = .error (.gasCostTooHigh (state0.maxAllowedGasCost + 1) state0.maxAllowedGasCost) :=
  claim_C8_cost_boundary kec0 recover1 state0 0 0 op0 0 0 (List.replicate 65 0)
    (by decide) (by rfl)

/-! ## Digest injectivity at the pre-hash encoding level -/

theorem word_inj256 {x y : Nat} (hx : x < 2 ^ 256) (hy : y < 2 ^ 256)
    (h : natToBytesBE 32 x = natToBytesBE 32 y) : x = y := by
  have hpow : (256 : Nat) ^ 32 = 2 ^ 256 := by
    rw [show (256 : Nat) = 2 ^ 8 by norm_num, ← pow_mul]
    norm_num
  exact natToBytesBE_inj (by rw [hpow]; exact hx) (by rw [hpow]; exact hy) h

theorem getHashEncoding_inj
    {vu va cid pm snd non cdh vu2 va2 cid2 pm2 snd2 non2 cdh2 : Nat}
    (h : getHashEncoding vu va cid pm snd non cdh
      = getHashEncoding vu2 va2 cid2 pm2 snd2 non2 cdh2) :
    natToBytesBE 32 vu = natToBytesBE 32 vu2 ∧ natToBytesBE 32 va = natToBytesBE 32 va2 ∧
      natToBytesBE 32 cid = natToBytesBE 32 cid2 ∧
      natToBytesBE 32 pm = natToBytesBE 32 pm2 ∧
      natToBytesBE 32 snd = natToBytesBE 32 snd2 ∧
      natToBytesBE 32 non = natToBytesBE 32 non2 ∧
      natToBytesBE 32 cdh = natToBytesBE 32 cdh2 := by
  unfold getHashEncoding at h
  simp only [List.append_assoc] at h
  obtain ⟨h1, h⟩ := word_append_inj h
  obtain ⟨h2, h⟩ := word_append_inj h
  obtain ⟨h3, h⟩ := word_append_inj h
  obtain ⟨h4, h⟩ := word_append_inj h
  obtain ⟨h5, h⟩ := word_append_inj h
  obtain ⟨h6, h7⟩ := word_append_inj h
  exact ⟨h1, h2, h3, h4, h5, h6, h7⟩

theorem eip712DomainEncoding_inj
    {th nh vh cid addr th2 nh2 vh2 cid2 addr2 : Nat}
    (h : eip712DomainEncoding th nh vh cid addr
      = eip712DomainEncoding th2 nh2 vh2 cid2 addr2) :
    natToBytesBE 32 th = natToBytesBE 32 th2 ∧ natToBytesBE 32 nh = natToBytesBE 32 nh2 ∧
      natToBytesBE 32 vh = natToBytesBE 32 vh2 ∧
      natToBytesBE 32 cid = natToBytesBE 32 cid2 ∧
      natToBytesBE 32 addr = natToBytesBE 32 addr2 := by
  unfold eip712DomainEncoding at h
  simp only [List.append_assoc] at h
  obtain ⟨h1, h⟩ := word_append_inj h
  obtain ⟨h2, h⟩ := word_append_inj h
  obtain ⟨h3, h⟩ := word_append_inj h
  obtain ⟨h4, h5⟩ := word_append_inj h
  exact ⟨h1, h2, h3, h4, h5⟩

/-- C4: digest construction is deterministic — equal field tuples yield
equal digests — and injective at the pre-hash encoding level: changing
exactly one of sender, nonce, callDataHash, chainId or the authorizer
(paymaster) address changes the `getHash` pre-hash encoding, and changing
the protocol-version hash word changes the EIP-712 domain-separator
pre-hash encoding (the version string enters the domain encoding through
its 32-byte hash word). -/
theorem claim_C4_digest_deterministic_injective :
    (∀ (kec : List Nat → Nat) (vu va cid pm snd non cdh vu2 va2 cid2 pm2 snd2 non2 cdh2 : Nat),
      vu = vu2 → va = va2 → cid = cid2 → pm = pm2 → snd = snd2 → non = non2 → cdh = cdh2 →
      getHash kec vu va cid pm snd non cdh = getHash kec vu2 va2 cid2 pm2 snd2 non2 cdh2) ∧
    (∀ vu va cid pm snd non cdh snd2 : Nat, snd < 2 ^ 256 → snd2 < 2 ^ 256 → snd ≠ snd2 →
      getHashEncoding vu va cid pm snd non cdh ≠ getHashEncoding vu va cid pm snd2 non cdh) ∧
    (∀ vu va cid pm snd non cdh non2 : Nat, non < 2 ^ 256 → non2 < 2 ^ 256 → non ≠ non2 →
      getHashEncoding vu va cid pm snd non cdh ≠ getHashEncoding vu va cid pm snd non2 cdh) ∧
    (∀ vu va cid pm snd non cdh cdh2 : Nat, cdh < 2 ^ 256 → cdh2 < 2 ^ 256 → cdh ≠ cdh2 →
      getHashEncoding vu va cid pm snd non cdh ≠ getHashEncoding vu va cid pm snd non cdh2) ∧
    (∀ vu va cid pm snd non cdh cid2 : Nat, cid < 2 ^ 256 → cid2 < 2 ^ 256 → cid ≠ cid2 →
      getHashEncoding vu va cid pm snd non cdh ≠ getHashEncoding vu va cid2 pm snd non cdh) ∧
    (∀ vu va cid pm snd non cdh pm2 : Nat, pm < 2 ^ 256 → pm2 < 2 ^ 256 → pm ≠ pm2 →
      getHashEncoding vu va cid pm snd non cdh ≠ getHashEncoding vu va cid pm2 snd non cdh) ∧
    (∀ th nh vh cid addr vh2 : Nat, vh < 2 ^ 256 → vh2 < 2 ^ 256 → vh ≠ vh2 →
      eip712DomainEncoding th nh vh cid addr ≠ eip712DomainEncoding th nh vh2 cid addr) := by
  refine ⟨?_, ?_, ?_, ?_, ?_, ?_, ?_⟩
  · intro kec vu va cid pm snd non cdh vu2 va2 cid2 pm2 snd2 non2 cdh2 h1 h2 h3 h4 h5 h6 h7
    rw [h1, h2, h3, h4, h5, h6, h7]
  · intro vu va cid pm snd non cdh snd2 hx hy hne h
    exact hne (word_inj256 hx hy (getHashEncoding_inj h).2.2.2.2.1)
  · intro vu va cid pm snd non cdh non2 hx hy hne h
    exact hne (word_inj256 hx hy (getHashEncoding_inj h).2.2.2.2.2.1)
  · intro vu va cid pm snd non cdh cdh2 hx hy hne h
    exact hne (word_inj256 hx hy (getHashEncoding_inj h).2.2.2.2.2.2)
  · intro vu va cid pm snd non cdh cid2 hx hy hne h
    exact hne (word_inj256 hx hy (getHashEncoding_inj h).2.2.1)
  · intro vu va cid pm snd non cdh pm2 hx hy hne h
    exact hne (word_inj256 hx hy (getHashEncoding_inj h).2.2.2.1)
  · intro th nh vh cid addr vh2 hx hy hne h
    exact hne (word_inj256 hx hy (eip712DomainEncoding_inj h).2.2.1)

/-- Witness for C4: concrete single-field changes (sender `5` to `6`;
version-hash word `3` to `9`) change the respective encodings. -/
theorem claim_C4_digest_deterministic_injective_witness :
    getHashEncoding 0 0 0 0 5 0 0 ≠ getHashEncoding 0 0 0 0 6 0 0 ∧
      eip712DomainEncoding 1 2 3 4 5 ≠ eip712DomainEncoding 1 2 9 4 5 :=
  ⟨claim_C4_digest_deterministic_injective.2.1 0 0 0 0 5 0 0 6
      (by norm_num) (by norm_num) (by norm_num),
    claim_C4_digest_deterministic_injective.2.2.2.2.2.2 1 2 3 4 5 9
      (by norm_num) (by norm_num) (by norm_num)⟩

/-- C2: replay resistance.  Let operation B differ from operation A only
in the nonce or only in the call payload's hash (same sender, same
attached payload), and let the signature verify only over the digest of A
(unforgeability of the concrete signature, `hsig`).  Then the two
`getHash` pre-hash encodings provably differ; and granted that `kec` does
not collide on the two distinct digest inputs (`hkec1`, with `hkec2` the
same collision-freedom one EIP-191 layer up), validating the signature
against B yields exactly the signature-rejected outcome carrying the
decoded window — never the accepted outcome — for every requested cost. -/
theorem claim_C2_replay_rejected
    (kec : List Nat → Nat) (recover : Nat → List Nat → Nat)
    (state : PaymasterState) (chainid selfAddress maxCost : Nat)
    (opA opB : PackedUserOperation)
    (validUntil validAfter : Nat) (signature : List Nat)
    (hparse : parsePaymasterData (opA.paymasterAndData.drop PAYMASTER_DATA_OFFSET)
      = .ok (validUntil, validAfter, signature))
    (hpd : opB.paymasterAndData = opA.paymasterAndData)
    (hsender : opB.sender = opA.sender)
    (hdiff : (opB.nonce ≠ opA.nonce ∧ opB.callData = opA.callData ∧
        opA.nonce < 2 ^ 256 ∧ opB.nonce < 2 ^ 256) ∨
      (opB.nonce = opA.nonce ∧ kec opB.callData ≠ kec opA.callData ∧
        kec opA.callData < 2 ^ 256 ∧ kec opB.callData < 2 ^ 256))
    (hkec1 : getHash kec validUntil validAfter chainid selfAddress opB.sender opB.nonce
        (kec opB.callData)
      ≠ getHash kec validUntil validAfter chainid selfAddress opA.sender opA.nonce
        (kec opA.callData))
    (hrangeA : getHash kec validUntil validAfter chainid selfAddress opA.sender opA.nonce
        (kec opA.callData) < 2 ^ 256)
    (hrangeB : getHash kec validUntil validAfter chainid selfAddress opB.sender opB.nonce
        (kec opB.callData) < 2 ^ 256)
    (hkec2 : toEthSignedMessageHash kec (getHash kec validUntil validAfter chainid
        selfAddress opB.sender opB.nonce (kec opB.callData))
      ≠ toEthSignedMessageHash kec (getHash kec validUntil validAfter chainid
        selfAddress opA.sender opA.nonce (kec opA.callData)))
    (hsig : ∀ d : Nat, d ≠ toEthSignedMessageHash kec (getHash kec validUntil validAfter
        chainid selfAddress opA.sender opA.nonce (kec opA.callData)) →
      recover d signature ≠ state.verifyingSigner) :
    getHashEncoding validUntil validAfter chainid selfAddress opB.sender opB.nonce
        (kec opB.callData)
      ≠ getHashEncoding validUntil validAfter chainid selfAddress opA.sender opA.nonce
        (kec opA.callData) ∧
    eip191Header ++ natToBytesBE 32 (getHash kec validUntil validAfter chainid selfAddress
        opB.sender opB.nonce (kec opB.callData))
      ≠ eip191Header ++ natToBytesBE 32 (getHash kec validUntil validAfter chainid
        selfAddress opA.sender opA.nonce (kec opA.callData)) ∧
    _validatePaymasterUserOp kec recover state chainid selfAddress opB maxCost
      = .ok ([], _packValidationData true validUntil validAfter) := by
  refine ⟨?_, ?_, ?_⟩
  · rcases hdiff with ⟨hne, hcd, hA, hB⟩ | ⟨hnon, hkcd, hA, hB⟩
    · intro h
      exact hne (word_inj256 hB hA (getHashEncoding_inj h).2.2.2.2.2.1)
    · intro h
      exact hkcd (word_inj256 hB hA (getHashEncoding_inj h).2.2.2.2.2.2)
  · intro h
    have hw := (List.append_inj h rfl).2
    exact hkec1 (word_inj256 hrangeB hrangeA hw)
  · have hparseB : parsePaymasterData (opB.paymasterAndData.drop PAYMASTER_DATA_OFFSET)
        = .ok (validUntil, validAfter, signature) := by
      rw [hpd]; exact hparse
    rw [validate_of_parse_ok hparseB maxCost, if_pos (hsig _ hkec2)]

/-- Witness for C2: a signature minted for `op0` (nonce `0`) is
signature-rejected when validated against `opB0` (nonce `1`), under the
concrete hash stand-in `kec0` and the matching recovery oracle. -/
theorem claim_C2_replay_rejected_witness :
    _validatePaymasterUserOp kec0 recoverC2 state0 0 0 opB0 5
      = .ok ([], _packValidationData true 0 0) :=
  (claim_C2_replay_rejected kec0 recoverC2 state0 0 0 5 op0 opB0 0 0 (List.replicate 65 0)
    (by decide) rfl rfl
    (Or.inl ⟨by decide, rfl, by decide, by decide⟩)
    (by decide) (by decide) (by decide) (by decide)
    (fun d hd => by
      unfold recoverC2
      rw [if_neg hd]
      decide)).2.2

/-! ## ConfigStore claims -/

/-- C9: `MyPaymasterSigner.setMaxAllowedGasCost` rejects, with no state
change, a requested value of zero (from any caller) and every value above
the fixed `1 ether = 10^18 wei` ceiling; for every value strictly between
zero and the ceiling the owner's call succeeds and sets the cap to exactly
that value, leaving the other fields unchanged. -/
theorem claim_C9_setMaxAllowedGasCost_bounds (s : MyPaymasterSigner.State)
    (caller v : Nat) :
    (∃ e, MyPaymasterSigner.setMaxAllowedGasCost s caller 0 = .error e) ∧
    (10 ^ 18 < v → ∃ e, MyPaymasterSigner.setMaxAllowedGasCost s caller v = .error e) ∧
    (0 < v → v < 10 ^ 18 → MyPaymasterSigner.setMaxAllowedGasCost s s.owner v
      = .ok ⟨s.owner, s.signer, v⟩) := by
  refine ⟨?_, ?_, ?_⟩
  · unfold MyPaymasterSigner.setMaxAllowedGasCost
    by_cases h : caller ≠ s.owner
    · exact ⟨.notOwner, by rw [if_pos h]⟩
    · exact ⟨.requireFailedZero, by rw [if_neg h, if_pos (by omega)]⟩
  · intro hv
    unfold MyPaymasterSigner.setMaxAllowedGasCost
    by_cases h : caller ≠ s.owner
    · exact ⟨.notOwner, by rw [if_pos h]⟩
    · exact ⟨.requireFailedTooHigh, by rw [if_neg h, if_neg (by omega), if_pos (by omega)]⟩
  · intro h1 h2
    unfold MyPaymasterSigner.setMaxAllowedGasCost
    rw [if_neg (by simp), if_neg (by omega), if_neg (by omega)]

/-- Witness for C9: on a concrete state, zero is rejected and an in-range
value is set exactly. -/
theorem claim_C9_setMaxAllowedGasCost_bounds_witness :
    (∃ e, MyPaymasterSigner.setMaxAllowedGasCost ⟨0, 1, 100⟩ 0 0 = .error e) ∧
    MyPaymasterSigner.setMaxAllowedGasCost ⟨0, 1, 100⟩ 0 5 = .ok ⟨0, 1, 5⟩ :=
  ⟨(claim_C9_setMaxAllowedGasCost_bounds ⟨0, 1, 100⟩ 0 5).1,
    (claim_C9_setMaxAllowedGasCost_bounds ⟨0, 1, 100⟩ 0 5).2.2 (by norm_num) (by norm_num)⟩

/-- C10: admin setter frame and atomicity for the V07 contract: a call to
`setVerifyingSigner` or `setMaxAllowedGasCost` from any caller other than
the owner is rejected with `notOwner` and (the call returning an error) the
configuration is unchanged; an owner call updates exactly the targeted
field and leaves the other two `Config` fields unchanged. -/
theorem claim_C10_admin_frame (s : PaymasterState) (caller newSigner newMax : Nat) :
    (caller ≠ s.owner →
      setVerifyingSigner s caller newSigner = .error .notOwner ∧
      setMaxAllowedGasCost s caller newMax = .error .notOwner) ∧
    setVerifyingSigner s s.owner newSigner
      = .ok ⟨s.owner, newSigner, s.maxAllowedGasCost⟩ ∧
    setMaxAllowedGasCost s s.owner newMax
      = .ok ⟨s.owner, s.verifyingSigner, newMax⟩ := by
  refine ⟨fun h => ⟨?_, ?_⟩, ?_, ?_⟩
  · unfold setVerifyingSigner
    rw [if_pos h]
  · unfold setMaxAllowedGasCost
    rw [if_pos h]
  · unfold setVerifyingSigner
    rw [if_neg (by simp)]
  · unfold setMaxAllowedGasCost
    rw [if_neg (by simp)]

/-- Witness for C10: on a concrete state, a non-owner call is rejected and
an owner call updates exactly the signer field. -/
theorem claim_C10_admin_frame_witness :
    setVerifyingSigner state0 2 9 = .error .notOwner ∧
    setVerifyingSigner state0 state0.owner 9
      = .ok ⟨state0.owner, 9, state0.maxAllowedGasCost⟩ :=
  ⟨((claim_C10_admin_frame state0 2 9 7).1 (by decide)).1,
    (claim_C10_admin_frame state0 2 9 7).2.1⟩

end PaymasterService
